import Mathlib

/-!
Verification of the ValonSynth serial-synthesizer driver.

The definitions below are shallow embeddings of the C++ sources:
`ValonSynth.cc` / `ValonSynth.h` (the `ValonSynth` class), `ValonSynth.inl` /
`ValonSynth.hpp` (the template `Valon::Synth` variant), `BitField.h` and
`ValonRegisters.h`.  Machine integers (`unsigned char`, `unsigned int`,
`uint32_t`) are modelled as `ℕ`; `float` quantities that the claims reason
about algebraically are modelled as `ℚ` (every concrete value involved is
exactly representable, and the claims are about the algebraic structure of the
computations, not float rounding).
-/

/-! ## Checksum (ValonSynth.cc, generate_checksum / verify_checksum) -/

/-- `ValonSynth::generate_checksum` (ValonSynth.cc 437-446): sum the bytes into
an `unsigned int` accumulator and return `sum % 256`.  Over `ℕ` this agrees
with the C code even if the 32-bit accumulator were to wrap, because
`(s % 2^32) % 256 = s % 256`. -/
def generate_checksum (bytes : List ℕ) : ℕ :=
  (bytes.foldl (fun sum b => sum + b) 0) % 256

/-- `ValonSynth::verify_checksum` (ValonSynth.cc 448-453). -/
def verify_checksum (bytes : List ℕ) (checksum : ℕ) : Bool :=
  generate_checksum bytes == checksum

/-- Whether a query operation accepts the reply it has just read
(ValonSynth.cc, e.g. get_frequency lines 38-55).  Every `get_*` member reads
the payload and one checksum byte; the comparison of the two sits inside
`#ifdef VERIFY_CHECKSUM`, so it only runs when that flag was defined at
compile time.  The flag is modelled as the first argument; in the default
build it is `false` and the reply is accepted unconditionally. -/
def query_reply_accepted (verify_checksum_flag : Bool) (payload : List ℕ)
    (checksum : ℕ) : Bool :=
  if verify_checksum_flag then verify_checksum payload checksum else true

/-! ## Write framing (ValonSynth.cc set_vco_range and friends) -/

/-- `ValonSynth::pack_short` (ValonSynth.cc 531-536): big-endian 16-bit pack. -/
def pack_short (num : ℕ) : List ℕ :=
  [(num >>> 8) &&& 0xff, num &&& 0xff]

/-- The 6-byte buffer built by `ValonSynth::set_vco_range`
(ValonSynth.cc 335-347): address `0x03 | synth`, big-endian min and max, then
`bytes[5] = generate_checksum(bytes, 5)`. -/
def set_vco_range_buffer (synth vmin vmax : ℕ) : List ℕ :=
  let b := [0x03 ||| synth] ++ pack_short vmin ++ pack_short vmax
  b ++ [generate_checksum b]

/-- The bytes `set_vco_range` actually transmits: the call on line 344 is
`s.write(bytes, 5)`, sending only the first five bytes of the buffer. -/
def set_vco_range_transmitted (synth vmin vmax : ℕ) : List ℕ :=
  (set_vco_range_buffer synth vmin vmax).take 5

/-- A write command's result test (`return bytes[0] == ACK;` with
`ACK = 0x06`, ValonSynth.h 356). -/
def write_reply_ok (reply : ℕ) : Bool :=
  reply == 0x06

/-! ## BitField (BitField.h) -/

/-- `BitField::Max = (1U << Width) - 1U` (BitField.h 16). -/
def bf_max (width : ℕ) : ℕ := (1 <<< width) - 1

/-- `BitField::Mask = Max << Index` (BitField.h 17). -/
def bf_mask (index width : ℕ) : ℕ := bf_max width <<< index

/-- `BitField::operator=`: `value = (value & ~Mask) | ((v & Max) << Index)`
(BitField.h 20-23).  `~Mask` on a `uint32_t` is `0xffffffff ^ Mask`. -/
def bf_assign (index width value v : ℕ) : ℕ :=
  (value &&& (0xffffffff ^^^ bf_mask index width)) |||
    ((v &&& bf_max width) <<< index)

/-- `BitField::operator T()`: `(value >> Index) & Max` (BitField.h 25-27). -/
def bf_get (index width value : ℕ) : ℕ :=
  (value >>> index) &&& bf_max width

/-- `BitField::operator bool()`: `value & Mask` converted to bool
(BitField.h 32-34). -/
def bf_bool (index width value : ℕ) : Bool :=
  value &&& bf_mask index width != 0

/-! ## RF level (ValonSynth.cc get_rf_level / set_rf_level) -/

/-- The encoding switch of `ValonSynth::set_rf_level` (ValonSynth.cc 180-188);
`none` models the `default: return false;` branch, which exits before any
serial traffic happens. -/
def rf_level_to_code (rf_level : ℤ) : Option ℕ :=
  if rf_level = -4 then some 0
  else if rf_level = -1 then some 1
  else if rf_level = 2 then some 2
  else if rf_level = 5 then some 3
  else none

/-- The decoding switch of `ValonSynth::get_rf_level` (ValonSynth.cc 166-173).
The argument is always `(reg4 >> 3) & 0x03 < 4`, so the final catch-all is
unreachable there; it is given the value `-4`, matching the initializer of the
template variant `Valon::Synth::getRfLevel` (ValonSynth.inl 95). -/
def code_to_rf_level (c : ℕ) : ℤ :=
  if c = 0 then -4
  else if c = 1 then -1
  else if c = 2 then 2
  else if c = 3 then 5
  else -4

/-- The register-4 update done by `ValonSynth::set_rf_level`
(ValonSynth.cc 207-208): `reg4 &= 0xffffffe7; reg4 |= (rfl & 0x03) << 3;`. -/
def set_rf_level_reg4 (reg4 rfl : ℕ) : ℕ :=
  (reg4 &&& 0xffffffe7) ||| ((rfl &&& 0x03) <<< 3)

/-- `ValonSynth::set_rf_level` at the register level (ValonSynth.cc 177-216):
an invalid dBm value takes the `default: return false;` branch before the
read-modify-write cycle starts (`none`); otherwise register 4's output-power
field is rewritten. -/
def set_rf_level_model (reg4 : ℕ) (rf_level : ℤ) : Option ℕ :=
  match rf_level_to_code rf_level with
  | none => none
  | some c => some (set_rf_level_reg4 reg4 c)

/-! ## Register unpacking and the frequency read path (ValonSynth.cc) -/

/-- `ValonSynth::unpack_int` (ValonSynth.cc 538-543): big-endian 32-bit
unpack of four bytes. -/
def unpack_int (b0 b1 b2 b3 : ℕ) : ℕ :=
  (b0 <<< 24) + (b1 <<< 16) + (b2 <<< 8) + b3

/-- The 32-bit word starting at offset `k` of a register payload, as in the
`unpack_int(&bytes[k], reg)` calls throughout ValonSynth.cc. -/
def word_at (bytes : List ℕ) (k : ℕ) : ℕ :=
  unpack_int (bytes.getD k 0) (bytes.getD (k + 1) 0)
    (bytes.getD (k + 2) 0) (bytes.getD (k + 3) 0)

/-- The `registers` struct of ValonSynth.h (lines 359-365). -/
structure FreqRegisters where
  ncount : ℕ
  frac : ℕ
  md : ℕ
  dbf : ℕ
deriving DecidableEq, Repr

/-- The divider-select decoding switch of `ValonSynth::unpack_freq_registers`
(ValonSynth.cc 510-519): codes 0-4 give 1,2,4,8,16 and `default:` gives 1. -/
def decode_divider_select (code : ℕ) : ℕ :=
  if code = 0 then 1
  else if code = 1 then 2
  else if code = 2 then 4
  else if code = 3 then 8
  else if code = 4 then 16
  else 1

/-- `ValonSynth::unpack_freq_registers` (ValonSynth.cc 494-520) applied to the
24-byte register payload. -/
def unpack_freq_registers (bytes : List ℕ) : FreqRegisters :=
  { ncount := (word_at bytes 0 >>> 15) &&& 0xffff
    frac := (word_at bytes 0 >>> 3) &&& 0x0fff
    md := (word_at bytes 4 >>> 3) &&& 0x0fff
    dbf := decode_divider_select ((word_at bytes 16 >>> 20) &&& 0x07) }

/-- The `options` struct of ValonSynth.h (lines 86-108). -/
structure SynthOptions where
  low_spur : Bool
  double_ref : Bool
  half_ref : Bool
  r : ℕ
deriving DecidableEq, Repr

/-- The field extraction of `ValonSynth::get_options` (ValonSynth.cc 242-245)
from the register-2 word.  The C code assigns `int` expressions to `bool`
members, so truth is "nonzero". -/
def get_options_of_reg2 (reg2 : ℕ) : SynthOptions :=
  { low_spur := (((reg2 >>> 30) &&& 1) &&& ((reg2 >>> 29) &&& 1)) != 0
    double_ref := ((reg2 >>> 25) &&& 1) != 0
    half_ref := ((reg2 >>> 24) &&& 1) != 0
    r := (reg2 >>> 14) &&& 0x03ff }

/-- `ValonSynth::getEPDF` (ValonSynth.cc 421-432): the reference frequency in
Hz divided by 1e6, doubled under `double_ref`, halved under `half_ref`,
divided by `r` when `r > 1`. -/
def getEPDF (reference_hz : ℕ) (opts : SynthOptions) : ℚ :=
  let reference : ℚ := (reference_hz : ℚ) / 1000000
  let reference := if opts.double_ref then reference * 2 else reference
  let reference := if opts.half_ref then reference / 2 else reference
  if opts.r > 1 then reference / (opts.r : ℚ) else reference

/-- `ValonSynth::get_frequency` (ValonSynth.cc 38-55): unpack the frequency
registers from the 24-byte payload, compute the EPDF from the device's
reference frequency and the options held in the same register set, and return
`(ncount + frac/mod) * EPDF / dbf`. -/
def get_frequency (bytes : List ℕ) (reference_hz : ℕ) : ℚ :=
  let regs := unpack_freq_registers bytes
  let epdf := getEPDF reference_hz (get_options_of_reg2 (word_at bytes 8))
  ((regs.ncount : ℚ) + (regs.frac : ℚ) / (regs.md : ℚ)) * epdf / (regs.dbf : ℚ)

/-- EPDF as the specification words it, for comparison with `getEPDF`:
`reference_hz / 1e6`, doubled if `double_ref`, halved if `half_ref` (both may
apply), divided by the divider `r` when `r > 1`. -/
def epdf_spec (reference_hz : ℕ) (double_ref half_ref : Bool) (r : ℕ) : ℚ :=
  (reference_hz : ℚ) / 1000000 * (if double_ref then 2 else 1) /
    (if half_ref then 2 else 1) / (if 1 < r then (r : ℚ) else 1)

/-! ## Register write-back paths (ValonSynth.cc) -/

/-- The six 32-bit register words of one synthesizer channel. -/
structure Regs6 where
  r0 : ℕ
  r1 : ℕ
  r2 : ℕ
  r3 : ℕ
  r4 : ℕ
  r5 : ℕ
deriving DecidableEq, Repr

/-- The divider-select encoding switch of `ValonSynth::pack_freq_registers`
(ValonSynth.cc 461-469): `int dbf = 0;` and no `default:` case, so any value
outside {1,2,4,8,16} encodes as 0. -/
def encode_dbf (dbf : ℕ) : ℕ :=
  if dbf = 1 then 0
  else if dbf = 2 then 1
  else if dbf = 4 then 2
  else if dbf = 8 then 3
  else if dbf = 16 then 4
  else 0

/-- `ValonSynth::pack_freq_registers` (ValonSynth.cc 458-492) at the
register-word level: registers 0, 1 and 4 are masked and rewritten, registers
2, 3 and 5 pass through untouched. -/
def pack_freq_update (regs : Regs6) (f : FreqRegisters) : Regs6 :=
  { regs with
    r0 := (regs.r0 &&& 0x80000007) |||
      (((f.ncount &&& 0xffff) <<< 15) ||| ((f.frac &&& 0x0fff) <<< 3))
    r1 := (regs.r1 &&& 0xffff8007) ||| ((f.md &&& 0x0fff) <<< 3)
    r4 := (regs.r4 &&& 0xff8fffff) ||| (encode_dbf f.dbf <<< 20) }

/-- The register-set effect of `ValonSynth::set_rf_level`
(ValonSynth.cc 198-211): only register 4 changes. -/
def set_rf_level_update (regs : Regs6) (rfl : ℕ) : Regs6 :=
  { regs with r4 := set_rf_level_reg4 regs.r4 rfl }

/-- C++ bool-to-integer conversion, used where the source writes
`opts.low_spur & 1` on a `bool` member. -/
def bool_to_nat (b : Bool) : ℕ := if b then 1 else 0

/-- The register-2 update of `ValonSynth::set_options`
(ValonSynth.cc 271-274). -/
def set_options_reg2 (reg2 : ℕ) (opts : SynthOptions) : ℕ :=
  (reg2 &&& 0x9c003fff) |||
    (((bool_to_nat opts.low_spur &&& 1) <<< 30) |||
      (((bool_to_nat opts.low_spur &&& 1) <<< 29) |||
        (((bool_to_nat opts.double_ref &&& 1) <<< 25) |||
          (((bool_to_nat opts.half_ref &&& 1) <<< 24) |||
            ((opts.r &&& 0x03ff) <<< 14)))))

/-- The register-set effect of `ValonSynth::set_options`
(ValonSynth.cc 249-282): only register 2 changes. -/
def set_options_update (regs : Regs6) (opts : SynthOptions) : Regs6 :=
  { regs with r2 := set_options_reg2 regs.r2 opts }

/-! ## Frequency math: dbf selection (ValonSynth.cc set_frequency) -/

/-- The doubling loop of `ValonSynth::set_frequency` (ValonSynth.cc 64-67):
`while((frequency * dbf) <= vcor.min && (dbf <= 16)) dbf *= 2;`.
Fuel-indexed; starting from `dbf = 1` the loop body runs at most five times
(1,2,4,8,16 then 32 fails `dbf <= 16`), so fuel 6 is exact. -/
def dbf_loop : ℕ → ℚ → ℚ → ℚ → ℚ
  | 0, _, _, dbf => dbf
  | fuel + 1, frequency, vco_min, dbf =>
    if frequency * dbf ≤ vco_min ∧ dbf ≤ 16 then
      dbf_loop fuel frequency vco_min (dbf * 2)
    else dbf

/-- The dbf chosen by `ValonSynth::set_frequency` (ValonSynth.cc 62-71):
run the doubling loop from 1, then clamp `if (dbf > 16) dbf = 16;`. -/
def choose_dbf (frequency vco_min : ℚ) : ℚ :=
  let dbf := dbf_loop 6 frequency vco_min 1
  if dbf > 16 then 16 else dbf

/-- `float vco = frequency * dbf;` (ValonSynth.cc 72). -/
def set_frequency_vco (frequency vco_min : ℚ) : ℚ :=
  frequency * choose_dbf frequency vco_min

/-! ## Frequency math: fraction reduction (both variants) -/

/-- The reduction loop of `ValonSynth::set_frequency` (ValonSynth.cc 82-86):
`while(!(frac & 1) && !(mod & 1)) { frac /= 2; mod /= 2; }`.
The extra `0 < frac + md` guard only rules out the (0,0) state, on which the
C loop does not terminate; the caller enters the loop only with both values
nonzero, so the two agree on every reachable input. -/
def reduceLoop (frac md : ℕ) : ℕ × ℕ :=
  if frac % 2 = 0 ∧ md % 2 = 0 ∧ 0 < frac + md then
    reduceLoop (frac / 2) (md / 2)
  else (frac, md)
termination_by frac + md
decreasing_by
  omega

/-- The fraction-reduction step of `ValonSynth::set_frequency`
(ValonSynth.cc 79-92): halve both while both are even when both are nonzero,
else force `frac = 0, mod = 1`. -/
def reduce_frac_mod (frac md : ℕ) : ℕ × ℕ :=
  if frac ≠ 0 ∧ md ≠ 0 then reduceLoop frac md else (0, 1)

/-- The `gcd` helper of ValonSynth.inl (lines 6-14), a Euclid remainder
loop on `uint32_t`. -/
def gcd_src (a b : ℕ) : ℕ :=
  if b = 0 then a else gcd_src b (a % b)
termination_by b
decreasing_by
  exact Nat.mod_lt _ (by omega)

/-- The fraction-reduction step of the template variant
`Valon::Synth::setFrequency` (ValonSynth.inl 147-156): divide both by their
greatest common divisor when both are nonzero, else force `frac = 0, mod = 1`. -/
def reduce_frac_mod_inl (frac md : ℕ) : ℕ × ℕ :=
  if frac ≠ 0 ∧ md ≠ 0 then (frac / gcd_src frac md, md / gcd_src frac md)
  else (0, 1)

/-! ## General bit-level helper lemmas -/

theorem testBit_shiftLeft_false_of_lt (x s w i : ℕ) (hx : x < 2 ^ w)
    (h : i < s ∨ s + w ≤ i) : Nat.testBit (x <<< s) i = false := by
  rcases h with h | h
  · simp [Nat.testBit_shiftLeft, Nat.not_le.mpr h]
  · have h1 : x < 2 ^ (i - s) :=
      lt_of_lt_of_le hx (Nat.pow_le_pow_right (by norm_num) (by omega))
    simp [Nat.testBit_shiftLeft, Nat.testBit_lt_two_pow h1]

theorem rmw_preserves (a m v i : ℕ) (hm : Nat.testBit m i = true)
    (hv : Nat.testBit v i = false) :
    Nat.testBit ((a &&& m) ||| v) i = Nat.testBit a i := by
  simp [Nat.testBit_or, Nat.testBit_and, hm, hv]

theorem testBit_ffffffff (i : ℕ) :
    Nat.testBit 0xffffffff i = decide (i < 32) := by
  have h : (0xffffffff : ℕ) = 2 ^ 32 - 1 := by norm_num
  rw [h, Nat.testBit_two_pow_sub_one]

theorem bf_max_eq (w : ℕ) : bf_max w = 2 ^ w - 1 := by
  simp [bf_max, Nat.one_shiftLeft]

theorem encode_dbf_lt (d : ℕ) : encode_dbf d < 8 := by
  unfold encode_dbf
  split_ifs <;> norm_num

theorem bit_extract_eq (y k : ℕ) : (y >>> k) &&& 1 = (y.testBit k).toNat := by
  rw [Nat.and_one_is_mod, Nat.shiftRight_eq_div_pow, Nat.toNat_testBit]

/-! ## BitField semantics lemmas (towards claim C7) -/

theorem bf_read_after_write (index width value v : ℕ)
    (hw : index + width ≤ 32) :
    bf_get index width (bf_assign index width value v) =
      v &&& ((1 <<< width) - 1) := by
  have hm : (1 <<< width) - 1 = bf_max width := rfl
  rw [hm]
  apply Nat.eq_of_testBit_eq
  intro i
  by_cases hi : i < width
  · have h1 : index + i < 32 := by omega
    simp [bf_get, bf_assign, bf_mask, bf_max_eq, testBit_ffffffff,
      Nat.testBit_or, Nat.testBit_and, Nat.testBit_xor, Nat.testBit_shiftLeft,
      Nat.testBit_shiftRight, Nat.testBit_two_pow_sub_one, hi, h1,
      Nat.le_add_right, Nat.add_sub_cancel_left]
  · simp [bf_get, bf_assign, bf_mask, bf_max_eq, testBit_ffffffff,
      Nat.testBit_or, Nat.testBit_and, Nat.testBit_xor, Nat.testBit_shiftLeft,
      Nat.testBit_shiftRight, Nat.testBit_two_pow_sub_one, hi,
      Nat.le_add_right, Nat.add_sub_cancel_left]

theorem bf_assign_frame (index width value v : ℕ)
    (hw : index + width ≤ 32) (hv32 : value < 2 ^ 32) :
    ∀ i : ℕ, i < index ∨ index + width ≤ i →
      (bf_assign index width value v).testBit i = value.testBit i := by
  intro i hcase
  by_cases h32i : i < 32
  · rcases hcase with hcase | hcase
    · have hni : ¬ index ≤ i := by omega
      simp [bf_assign, bf_mask, bf_max_eq, testBit_ffffffff,
        Nat.testBit_or, Nat.testBit_and, Nat.testBit_xor, Nat.testBit_shiftLeft,
        Nat.testBit_two_pow_sub_one, hni, h32i]
    · have hnw : ¬ (i - index) < width := by omega
      simp [bf_assign, bf_mask, bf_max_eq, testBit_ffffffff,
        Nat.testBit_or, Nat.testBit_and, Nat.testBit_xor, Nat.testBit_shiftLeft,
        Nat.testBit_two_pow_sub_one, hnw, h32i]
  · have hvb : value.testBit i = false :=
      Nat.testBit_lt_two_pow (lt_of_lt_of_le hv32
        (Nat.pow_le_pow_right (by norm_num) (by omega)))
    have hnw : ¬ (i - index) < width := by omega
    have hn32 : ¬ i < 32 := h32i
    simp [bf_assign, bf_mask, bf_max_eq, testBit_ffffffff,
      Nat.testBit_or, Nat.testBit_and, Nat.testBit_xor, Nat.testBit_shiftLeft,
      Nat.testBit_two_pow_sub_one, hnw, hn32, hvb]

theorem bf_bool_iff (index width value : ℕ) :
    bf_bool index width value = true ↔
      ∃ i, index ≤ i ∧ i < index + width ∧ value.testBit i = true := by
  constructor
  · intro hb
    have hne : value &&& bf_mask index width ≠ 0 := by
      simpa [bf_bool] using hb
    obtain ⟨i, hbit⟩ := Nat.ne_zero_implies_bit_true hne
    rw [Nat.testBit_and] at hbit
    have h1 : value.testBit i = true := by
      cases hv : value.testBit i <;> simp [hv] at hbit ⊢
    have h2 : (bf_mask index width).testBit i = true := by
      cases hm : (bf_mask index width).testBit i <;> simp [hm] at hbit ⊢
    rw [bf_mask, bf_max_eq, Nat.testBit_shiftLeft] at h2
    have h3 : index ≤ i := by
      by_contra hc
      simp [hc] at h2
    have h4 : (2 ^ width - 1 : ℕ).testBit (i - index) = true := by
      cases hm : (2 ^ width - 1 : ℕ).testBit (i - index) <;> simp [hm] at h2 ⊢
    rw [Nat.testBit_two_pow_sub_one] at h4
    have h5 : i - index < width := by simpa using h4
    exact ⟨i, h3, by omega, h1⟩
  · rintro ⟨i, hi1, hi2, hbit⟩
    have hmb : (bf_mask index width).testBit i = true := by
      rw [bf_mask, bf_max_eq, Nat.testBit_shiftLeft, Nat.testBit_two_pow_sub_one]
      have d1 : decide (index ≤ i) = true := by simpa using hi1
      have d2 : decide (i - index < width) = true := by
        simp only [decide_eq_true_eq]
        omega
      rw [d1, d2]
      rfl
    have hand : (value &&& bf_mask index width).testBit i = true := by
      rw [Nat.testBit_and, hbit, hmb]
      rfl
    have hne : value &&& bf_mask index width ≠ 0 := by
      intro hz
      rw [hz] at hand
      simp at hand
    simpa [bf_bool] using hne

/-! ## Frequency-math helper lemmas -/

theorem choose_dbf_eq (f m : ℚ) :
    choose_dbf f m =
      if m < f * 1 then 1 else if m < f * 2 then 2 else if m < f * 4 then 4
      else if m < f * 8 then 8 else 16 := by
  simp only [choose_dbf, dbf_loop]
  norm_num
  split_ifs <;> first | rfl | linarith

theorem reduceLoop_spec (frac md : ℕ) :
    ∃ k : ℕ, 2 ^ k ∣ frac ∧ 2 ^ k ∣ md ∧
      reduceLoop frac md = (frac / 2 ^ k, md / 2 ^ k) ∧
      (¬(frac / 2 ^ k % 2 = 0 ∧ md / 2 ^ k % 2 = 0) ∨ (frac = 0 ∧ md = 0)) := by
  induction frac, md using reduceLoop.induct with
  | case1 frac md h ih =>
    obtain ⟨k, hdf, hdm, heq, hrest⟩ := ih
    refine ⟨k + 1, ?_, ?_, ?_, ?_⟩
    · obtain ⟨a, ha⟩ := hdf
      exact ⟨a, by rw [← Nat.mul_div_cancel' (Nat.dvd_of_mod_eq_zero h.1), ha]; ring⟩
    · obtain ⟨a, ha⟩ := hdm
      exact ⟨a, by rw [← Nat.mul_div_cancel' (Nat.dvd_of_mod_eq_zero h.2.1), ha]; ring⟩
    · rw [reduceLoop, if_pos h, heq]
      rw [Nat.div_div_eq_div_mul, Nat.div_div_eq_div_mul]
      ring_nf
    · rcases hrest with hrest | hrest
      · left
        rw [Nat.div_div_eq_div_mul] at hrest
        rw [Nat.div_div_eq_div_mul] at hrest
        convert hrest using 3 <;> ring_nf
      · exfalso; omega
  | case2 frac md h =>
    refine ⟨0, by simp, by simp, by rw [reduceLoop, if_neg h]; simp, by omega⟩

theorem gcd_src_eq (a b : ℕ) : gcd_src a b = Nat.gcd a b := by
  induction a, b using gcd_src.induct with
  | case1 a => rw [gcd_src]; simp
  | case2 a b hb ih =>
    rw [gcd_src, if_neg hb, ih, Nat.gcd_comm b (a % b), ← Nat.gcd_rec b a,
      Nat.gcd_comm]

theorem getEPDF_eq (hz : ℕ) (o : SynthOptions) :
    getEPDF hz o = epdf_spec hz o.double_ref o.half_ref o.r := by
  unfold getEPDF epdf_spec
  rcases o with ⟨ls, dr, hr, r⟩
  cases dr <;> cases hr <;> by_cases h1 : 1 < r <;> simp [h1] <;> ring

/-! ## Low-spur field bits (towards claim C9) -/

theorem set_options_reg2_bit29 (reg2 : ℕ) (opts : SynthOptions) :
    (set_options_reg2 reg2 opts).testBit 29 = opts.low_spur := by
  have m29 : Nat.testBit 0x9c003fff 29 = false := by decide
  have p30 : Nat.testBit ((bool_to_nat opts.low_spur &&& 1) <<< 30) 29 = false :=
    testBit_shiftLeft_false_of_lt _ 30 1 29 (Nat.and_lt_two_pow _ (by norm_num)) (by omega)
  have p25 : Nat.testBit ((bool_to_nat opts.double_ref &&& 1) <<< 25) 29 = false :=
    testBit_shiftLeft_false_of_lt _ 25 1 29 (Nat.and_lt_two_pow _ (by norm_num)) (by omega)
  have p24 : Nat.testBit ((bool_to_nat opts.half_ref &&& 1) <<< 24) 29 = false :=
    testBit_shiftLeft_false_of_lt _ 24 1 29 (Nat.and_lt_two_pow _ (by norm_num)) (by omega)
  have p14 : Nat.testBit ((opts.r &&& 0x03ff) <<< 14) 29 = false :=
    testBit_shiftLeft_false_of_lt _ 14 10 29 (Nat.and_lt_two_pow _ (by norm_num)) (by omega)
  unfold set_options_reg2
  simp only [Nat.testBit_or, Nat.testBit_and, m29, p30, p25, p24, p14,
    Bool.false_or, Bool.or_false, Bool.and_false]
  cases h : opts.low_spur <;> simp [h, bool_to_nat, Nat.testBit_shiftLeft] <;> decide

theorem set_options_reg2_bit30 (reg2 : ℕ) (opts : SynthOptions) :
    (set_options_reg2 reg2 opts).testBit 30 = opts.low_spur := by
  have m30 : Nat.testBit 0x9c003fff 30 = false := by decide
  have p29 : Nat.testBit ((bool_to_nat opts.low_spur &&& 1) <<< 29) 30 = false :=
    testBit_shiftLeft_false_of_lt _ 29 1 30 (Nat.and_lt_two_pow _ (by norm_num)) (by omega)
  have p25 : Nat.testBit ((bool_to_nat opts.double_ref &&& 1) <<< 25) 30 = false :=
    testBit_shiftLeft_false_of_lt _ 25 1 30 (Nat.and_lt_two_pow _ (by norm_num)) (by omega)
  have p24 : Nat.testBit ((bool_to_nat opts.half_ref &&& 1) <<< 24) 30 = false :=
    testBit_shiftLeft_false_of_lt _ 24 1 30 (Nat.and_lt_two_pow _ (by norm_num)) (by omega)
  have p14 : Nat.testBit ((opts.r &&& 0x03ff) <<< 14) 30 = false :=
    testBit_shiftLeft_false_of_lt _ 14 10 30 (Nat.and_lt_two_pow _ (by norm_num)) (by omega)
  unfold set_options_reg2
  simp only [Nat.testBit_or, Nat.testBit_and, m30, p29, p25, p24, p14,
    Bool.false_or, Bool.or_false, Bool.and_false]
  cases h : opts.low_spur <;> simp [h, bool_to_nat, Nat.testBit_shiftLeft] <;> decide

/-! ## Register-update frame lemmas (towards claim C4) -/

theorem pack_freq_r0_frame (regs : Regs6) (f : FreqRegisters) (i : ℕ)
    (hi : i < 32) (h : ¬(3 ≤ i ∧ i ≤ 30)) :
    ((pack_freq_update regs f).r0).testBit i = regs.r0.testBit i := by
  apply rmw_preserves
  · interval_cases i <;> first | decide | (exfalso; omega)
  · rw [Nat.testBit_or,
      testBit_shiftLeft_false_of_lt _ _ 16 _ (Nat.and_lt_two_pow _ (by norm_num)) (by omega),
      testBit_shiftLeft_false_of_lt _ _ 12 _ (Nat.and_lt_two_pow _ (by norm_num)) (by omega)]
    rfl

theorem pack_freq_r1_frame (regs : Regs6) (f : FreqRegisters) (i : ℕ)
    (hi : i < 32) (h : ¬(3 ≤ i ∧ i ≤ 14)) :
    ((pack_freq_update regs f).r1).testBit i = regs.r1.testBit i := by
  apply rmw_preserves
  · interval_cases i <;> first | decide | (exfalso; omega)
  · exact testBit_shiftLeft_false_of_lt _ _ 12 _ (Nat.and_lt_two_pow _ (by norm_num)) (by omega)

theorem pack_freq_r4_frame (regs : Regs6) (f : FreqRegisters) (i : ℕ)
    (hi : i < 32) (h : ¬(20 ≤ i ∧ i ≤ 22)) :
    ((pack_freq_update regs f).r4).testBit i = regs.r4.testBit i := by
  apply rmw_preserves
  · interval_cases i <;> first | decide | (exfalso; omega)
  · exact testBit_shiftLeft_false_of_lt _ _ 3 _ (encode_dbf_lt _) (by omega)

theorem rf_level_r4_frame (regs : Regs6) (c : ℕ) (i : ℕ)
    (hi : i < 32) (h : ¬(3 ≤ i ∧ i ≤ 4)) :
    ((set_rf_level_update regs c).r4).testBit i = regs.r4.testBit i := by
  apply rmw_preserves
  · interval_cases i <;> first | decide | (exfalso; omega)
  · exact testBit_shiftLeft_false_of_lt _ _ 2 _ (Nat.and_lt_two_pow _ (by norm_num)) (by omega)

theorem options_r2_frame (regs : Regs6) (opts : SynthOptions) (i : ℕ)
    (hi : i < 32) (h : ¬((14 ≤ i ∧ i ≤ 25) ∨ i = 29 ∨ i = 30)) :
    ((set_options_update regs opts).r2).testBit i = regs.r2.testBit i := by
  apply rmw_preserves
  · interval_cases i <;> first | decide | (exfalso; omega)
  · rw [Nat.testBit_or, Nat.testBit_or, Nat.testBit_or, Nat.testBit_or,
      testBit_shiftLeft_false_of_lt _ _ 1 _ (Nat.and_lt_two_pow _ (by norm_num)) (by omega),
      testBit_shiftLeft_false_of_lt _ _ 1 _ (Nat.and_lt_two_pow _ (by norm_num)) (by omega),
      testBit_shiftLeft_false_of_lt _ _ 1 _ (Nat.and_lt_two_pow _ (by norm_num)) (by omega),
      testBit_shiftLeft_false_of_lt _ _ 1 _ (Nat.and_lt_two_pow _ (by norm_num)) (by omega),
      testBit_shiftLeft_false_of_lt _ _ 10 _ (Nat.and_lt_two_pow _ (by norm_num)) (by omega)]
    rfl

/-! ## Claim theorems -/

/-- Claim C1: in `set_frequency` the output divide-by factor is the smallest
power of two in {1,2,4,8,16} with `frequency * dbf > vco_min`, clamped to 16
when no such power of two exists; in particular for VCO minimum 2300 and
target 1200 MHz the chosen dbf is 2 and the VCO frequency is 2400. -/
theorem c1_set_frequency_dbf_choice :
    (∀ f m : ℚ,
      choose_dbf f m ∈ ({1, 2, 4, 8, 16} : Set ℚ) ∧
      (∀ e ∈ ({1, 2, 4, 8, 16} : Set ℚ), m < f * e → choose_dbf f m ≤ e) ∧
      ((∃ e ∈ ({1, 2, 4, 8, 16} : Set ℚ), m < f * e) → m < f * choose_dbf f m) ∧
      ((∀ e ∈ ({1, 2, 4, 8, 16} : Set ℚ), f * e ≤ m) → choose_dbf f m = 16)) ∧
    choose_dbf 1200 2300 = 2 ∧ set_frequency_vco 1200 2300 = 2400 := by
  refine ⟨fun f m => ?_, by norm_num [choose_dbf, dbf_loop],
    by norm_num [set_frequency_vco, choose_dbf, dbf_loop]⟩
  have hmem : ∀ x : ℚ, x ∈ ({1, 2, 4, 8, 16} : Set ℚ) ↔
      x = 1 ∨ x = 2 ∨ x = 4 ∨ x = 8 ∨ x = 16 := by
    intro x
    simp [Set.mem_insert_iff, Set.mem_singleton_iff]
  rw [choose_dbf_eq]
  split_ifs with h1 h2 h3 h4
  · refine ⟨by rw [hmem]; norm_num, fun e he hme => ?_, fun hex => by linarith,
      fun hall => ?_⟩
    · rcases (hmem e).mp he with rfl | rfl | rfl | rfl | rfl <;> linarith
    · exfalso; linarith [hall 1 (by rw [hmem]; norm_num)]
  · refine ⟨by rw [hmem]; norm_num, fun e he hme => ?_, fun hex => by linarith,
      fun hall => ?_⟩
    · rcases (hmem e).mp he with rfl | rfl | rfl | rfl | rfl <;> linarith
    · exfalso; linarith [hall 2 (by rw [hmem]; norm_num)]
  · refine ⟨by rw [hmem]; norm_num, fun e he hme => ?_, fun hex => by linarith,
      fun hall => ?_⟩
    · rcases (hmem e).mp he with rfl | rfl | rfl | rfl | rfl <;> linarith
    · exfalso; linarith [hall 4 (by rw [hmem]; norm_num)]
  · refine ⟨by rw [hmem]; norm_num, fun e he hme => ?_, fun hex => by linarith,
      fun hall => ?_⟩
    · rcases (hmem e).mp he with rfl | rfl | rfl | rfl | rfl <;> linarith
    · exfalso; linarith [hall 8 (by rw [hmem]; norm_num)]
  · refine ⟨by rw [hmem]; norm_num, fun e he hme => ?_, fun hex => ?_,
      fun hall => rfl⟩
    · rcases (hmem e).mp he with rfl | rfl | rfl | rfl | rfl <;> linarith
    · obtain ⟨e, he, hme⟩ := hex
      rcases (hmem e).mp he with rfl | rfl | rfl | rfl | rfl <;> linarith

/-- Witness for C1 at the concrete scenario of the claim. -/
theorem c1_set_frequency_dbf_choice_witness :
    (2 : ℚ) ∈ ({1, 2, 4, 8, 16} : Set ℚ) ∧ (2300 : ℚ) < 1200 * 2 ∧
    choose_dbf 1200 2300 ≤ 2 :=
  ⟨by norm_num, by norm_num,
    (c1_set_frequency_dbf_choice.1 1200 2300).2.1 2 (by norm_num) (by norm_num)⟩

/-- Claim C2 (counterexample): on the computed pair `frac = 6, mod = 9` (both
nonzero), `ValonSynth::set_frequency` writes the pair unchanged, not the pair
divided by its greatest common divisor 3 — so the written fraction is not in
lowest terms. -/
theorem c2_reduction_counterexample :
    (6 : ℕ) ≠ 0 ∧ (9 : ℕ) ≠ 0 ∧ Nat.gcd 6 9 = 3 ∧
    reduce_frac_mod 6 9 = (6, 9) ∧
    reduce_frac_mod 6 9 ≠ (6 / Nat.gcd 6 9, 9 / Nat.gcd 6 9) := by
  have h69 : reduce_frac_mod 6 9 = (6, 9) := by
    unfold reduce_frac_mod
    norm_num
    rw [reduceLoop]
    norm_num
  refine ⟨by decide, by decide, by decide, h69, ?_⟩
  rw [h69]
  decide

/-- Claim C2 (amended): when both computed values are nonzero,
`ValonSynth::set_frequency` (ValonSynth.cc) writes the pair divided by their
largest common power-of-two divisor (so 6,8 reduces to 3,4 but 6,9 stays 6,9),
while the template variant `Valon::Synth::setFrequency` (ValonSynth.inl)
divides by the true greatest common divisor, yielding lowest terms; whenever
`frac` or `mod` is zero both variants write `frac = 0, mod = 1`. -/
theorem c2_fraction_reduction_amended :
    (∀ frac md : ℕ, frac ≠ 0 → md ≠ 0 →
      ∃ k : ℕ, 2 ^ k ∣ frac ∧ 2 ^ k ∣ md ∧
        reduce_frac_mod frac md = (frac / 2 ^ k, md / 2 ^ k) ∧
        ¬(2 ∣ frac / 2 ^ k ∧ 2 ∣ md / 2 ^ k)) ∧
    (∀ frac md : ℕ, (frac = 0 ∨ md = 0) → reduce_frac_mod frac md = (0, 1)) ∧
    reduce_frac_mod 6 8 = (3, 4) ∧
    (∀ frac md : ℕ, frac ≠ 0 → md ≠ 0 →
      reduce_frac_mod_inl frac md =
        (frac / Nat.gcd frac md, md / Nat.gcd frac md) ∧
      Nat.Coprime (frac / Nat.gcd frac md) (md / Nat.gcd frac md)) := by
  have h68 : reduce_frac_mod 6 8 = (3, 4) := by
    unfold reduce_frac_mod
    norm_num
    rw [reduceLoop]
    norm_num
    rw [reduceLoop]
    norm_num
  refine ⟨?_, ?_, h68, ?_⟩
  · intro frac md hf hm
    obtain ⟨k, h1, h2, h3, h4⟩ := reduceLoop_spec frac md
    refine ⟨k, h1, h2, ?_, ?_⟩
    · rw [reduce_frac_mod, if_pos ⟨hf, hm⟩]
      exact h3
    · rcases h4 with h4 | h4
      · rintro ⟨hc1, hc2⟩
        exact h4 ⟨by omega, by omega⟩
      · exact absurd h4.1 hf
  · intro frac md h
    rw [reduce_frac_mod, if_neg (by tauto)]
  · intro frac md hf hm
    have hg : Nat.gcd frac md ≠ 0 := fun h => hf (Nat.eq_zero_of_gcd_eq_zero_left h)
    constructor
    · rw [reduce_frac_mod_inl, if_pos ⟨hf, hm⟩, gcd_src_eq]
    · exact Nat.coprime_div_gcd_div_gcd (Nat.pos_of_ne_zero hg)

/-- Witness for the amended C2 at the claim's concrete pair 6, 8. -/
theorem c2_fraction_reduction_amended_witness :
    (6 : ℕ) ≠ 0 ∧ (8 : ℕ) ≠ 0 ∧
    (∃ k : ℕ, 2 ^ k ∣ 6 ∧ 2 ^ k ∣ 8 ∧
      reduce_frac_mod 6 8 = (6 / 2 ^ k, 8 / 2 ^ k) ∧
      ¬(2 ∣ 6 / 2 ^ k ∧ 2 ∣ 8 / 2 ^ k)) :=
  ⟨by decide, by decide,
    c2_fraction_reduction_amended.1 6 8 (by decide) (by decide)⟩

/-- Claim C3: `get_frequency` returns `(ncount + frac/mod) * epdf / dbf`,
where `ncount`, `frac`, `mod` and the decoded divider select come from the
register payload and `epdf` is the reference in MHz, doubled under
`double_ref`, halved under `half_ref`, divided by `r` when `r > 1`. -/
theorem c3_get_frequency_formula :
    ∀ (bytes : List ℕ) (reference_hz : ℕ),
      get_frequency bytes reference_hz =
        ((unpack_freq_registers bytes).ncount +
          ((unpack_freq_registers bytes).frac : ℚ) /
            ((unpack_freq_registers bytes).md : ℚ)) *
          epdf_spec reference_hz
            (get_options_of_reg2 (word_at bytes 8)).double_ref
            (get_options_of_reg2 (word_at bytes 8)).half_ref
            (get_options_of_reg2 (word_at bytes 8)).r /
          ((unpack_freq_registers bytes).dbf : ℚ) := by
  intro bytes reference_hz
  unfold get_frequency
  rw [getEPDF_eq]

/-- Claim C4: each partial-update set operation only changes the bits of the
fields it names; every bit outside those fields, and every untouched
register, keeps the value that was read. -/
theorem c4_read_modify_write_frame :
    ∀ (regs : Regs6) (f : FreqRegisters) (rfl_code : ℕ) (opts : SynthOptions)
      (i : ℕ), i < 32 →
      ((¬(3 ≤ i ∧ i ≤ 30) →
          ((pack_freq_update regs f).r0).testBit i = regs.r0.testBit i) ∧
        (¬(3 ≤ i ∧ i ≤ 14) →
          ((pack_freq_update regs f).r1).testBit i = regs.r1.testBit i) ∧
        (¬(20 ≤ i ∧ i ≤ 22) →
          ((pack_freq_update regs f).r4).testBit i = regs.r4.testBit i) ∧
        (pack_freq_update regs f).r2 = regs.r2 ∧
        (pack_freq_update regs f).r3 = regs.r3 ∧
        (pack_freq_update regs f).r5 = regs.r5) ∧
      ((¬(3 ≤ i ∧ i ≤ 4) →
          ((set_rf_level_update regs rfl_code).r4).testBit i =
            regs.r4.testBit i) ∧
        (set_rf_level_update regs rfl_code).r0 = regs.r0 ∧
        (set_rf_level_update regs rfl_code).r1 = regs.r1 ∧
        (set_rf_level_update regs rfl_code).r2 = regs.r2 ∧
        (set_rf_level_update regs rfl_code).r3 = regs.r3 ∧
        (set_rf_level_update regs rfl_code).r5 = regs.r5) ∧
      ((¬((14 ≤ i ∧ i ≤ 25) ∨ i = 29 ∨ i = 30) →
          ((set_options_update regs opts).r2).testBit i = regs.r2.testBit i) ∧
        (set_options_update regs opts).r0 = regs.r0 ∧
        (set_options_update regs opts).r1 = regs.r1 ∧
        (set_options_update regs opts).r3 = regs.r3 ∧
        (set_options_update regs opts).r4 = regs.r4 ∧
        (set_options_update regs opts).r5 = regs.r5) := by
  intro regs f rfl_code opts i hi
  refine ⟨⟨fun h => pack_freq_r0_frame regs f i hi h,
      fun h => pack_freq_r1_frame regs f i hi h,
      fun h => pack_freq_r4_frame regs f i hi h, rfl, rfl, rfl⟩,
    ⟨fun h => rf_level_r4_frame regs rfl_code i hi h, rfl, rfl, rfl, rfl, rfl⟩,
    ⟨fun h => options_r2_frame regs opts i hi h, rfl, rfl, rfl, rfl, rfl⟩⟩

/-- Witness for C4 at bit 0 (outside every named field) on concrete
registers. -/
theorem c4_read_modify_write_frame_witness :
    (0 : ℕ) < 32 ∧ ¬(3 ≤ (0 : ℕ) ∧ (0 : ℕ) ≤ 30) ∧
    Nat.testBit (pack_freq_update ⟨11, 22, 33, 44, 55, 66⟩ ⟨7, 5, 9, 16⟩).r0 0 =
      Nat.testBit (11 : ℕ) 0 ∧
    Nat.testBit (set_rf_level_update ⟨11, 22, 33, 44, 55, 66⟩ 2).r4 0 =
      Nat.testBit (55 : ℕ) 0 ∧
    Nat.testBit (set_options_update ⟨11, 22, 33, 44, 55, 66⟩
        ⟨true, false, true, 5⟩).r2 0 = Nat.testBit (33 : ℕ) 0 :=
  ⟨by decide, by decide,
    (c4_read_modify_write_frame ⟨11, 22, 33, 44, 55, 66⟩ ⟨7, 5, 9, 16⟩ 2
      ⟨true, false, true, 5⟩ 0 (by decide)).1.1 (by decide),
    (c4_read_modify_write_frame ⟨11, 22, 33, 44, 55, 66⟩ ⟨7, 5, 9, 16⟩ 2
      ⟨true, false, true, 5⟩ 0 (by decide)).2.1.1 (by decide),
    (c4_read_modify_write_frame ⟨11, 22, 33, 44, 55, 66⟩ ⟨7, 5, 9, 16⟩ 2
      ⟨true, false, true, 5⟩ 0 (by decide)).2.2.1 (by decide)⟩

/-- Claim C5 (counterexample): in the default build (no `VERIFY_CHECKSUM`),
a query reply is accepted even though its trailing checksum byte (5) differs
from the sum of the payload bytes modulo 256 (0), so the reply is not
"accepted only when the checksum matches". -/
theorem c5_checksum_counterexample :
    query_reply_accepted false [0, 0, 0, 0] 5 = true ∧
    generate_checksum [0, 0, 0, 0] ≠ 5 := by
  decide

/-- Claim C5 (amended): the checksum comparison (sum of payload bytes modulo
256 against the trailing byte) is performed, and its failure makes the query
return failure without a retry, only when the driver is compiled with
`VERIFY_CHECKSUM`; in the default build the checksum byte is read but the
reply is accepted unconditionally. -/
theorem c5_checksum_validation_amended :
    ∀ (payload : List ℕ) (checksum : ℕ),
      (query_reply_accepted true payload checksum = true ↔
        generate_checksum payload = checksum) ∧
      query_reply_accepted false payload checksum = true := by
  intro payload checksum
  constructor
  · simp [query_reply_accepted, verify_checksum]
  · rfl

/-- Claim C6 (code bug): `ValonSynth::set_vco_range` builds the 6-byte frame
address + payload + checksum but transmits only its first five bytes
(`s.write(bytes, 5)`), dropping the checksum byte it just computed; shown
here on channel A with the range {2300, 4800}, whose checksum byte 217 is in
the buffer but not among the transmitted bytes.  The acknowledge test itself
matches the claim: success exactly on reply 0x06. -/
theorem c6_set_vco_range_drops_checksum :
    set_vco_range_buffer 0 2300 4800 = [3, 8, 252, 18, 192, 217] ∧
    set_vco_range_transmitted 0 2300 4800 = [3, 8, 252, 18, 192] ∧
    (set_vco_range_transmitted 0 2300 4800).length = 5 ∧
    generate_checksum [3, 8, 252, 18, 192] = 217 ∧
    (∀ reply : ℕ, write_reply_ok reply = true ↔ reply = 0x06) := by
  refine ⟨by decide, by decide, by decide, by decide, fun reply => ?_⟩
  simp [write_reply_ok]

/-- Claim C7: writing a bit-field stores the value truncated to the field's
width at the field's offset and leaves every bit outside
[offset, offset+width) unchanged; reading it back returns
`v & ((1 << width) - 1)`; the boolean view is true exactly when some bit in
the field's span is set. -/
theorem c7_bitfield_semantics :
    ∀ (index width value v : ℕ), index + width ≤ 32 → value < 2 ^ 32 →
      (bf_get index width (bf_assign index width value v) =
        v &&& ((1 <<< width) - 1)) ∧
      (∀ i : ℕ, i < index ∨ index + width ≤ i →
        (bf_assign index width value v).testBit i = value.testBit i) ∧
      (bf_bool index width value = true ↔
        ∃ i, index ≤ i ∧ i < index + width ∧ value.testBit i = true) :=
  fun index width value v hw hv32 =>
    ⟨bf_read_after_write index width value v hw,
      bf_assign_frame index width value v hw hv32,
      bf_bool_iff index width value⟩

/-- Witness for C7: the `output_power` field layout (offset 3, width 2) on a
fully-set register word, written with the over-wide value 7. -/
theorem c7_bitfield_semantics_witness :
    3 + 2 ≤ 32 ∧ (0xffffffff : ℕ) < 2 ^ 32 ∧
    bf_get 3 2 (bf_assign 3 2 0xffffffff 7) = 7 &&& ((1 <<< 2) - 1) :=
  ⟨by decide, by decide,
    (c7_bitfield_semantics 3 2 0xffffffff 7 (by decide) (by decide)).1⟩

/-- Claim C8: the RF-level mapping is the fixed bijection
{0,1,2,3} ↔ {-4,-1,2,5} in both directions, and `set_rf_level` on any other
dBm value fails before any transport I/O, performing no write. -/
theorem c8_rf_level_mapping :
    (∀ l : ℤ, l = -4 ∨ l = -1 ∨ l = 2 ∨ l = 5 →
      ∃ c, rf_level_to_code l = some c ∧ c < 4 ∧ code_to_rf_level c = l) ∧
    (∀ c : ℕ, c < 4 → rf_level_to_code (code_to_rf_level c) = some c) ∧
    (∀ l : ℤ, l ≠ -4 → l ≠ -1 → l ≠ 2 → l ≠ 5 →
      rf_level_to_code l = none ∧
      ∀ reg4 : ℕ, set_rf_level_model reg4 l = none) := by
  refine ⟨?_, ?_, ?_⟩
  · rintro l (rfl | rfl | rfl | rfl)
    · exact ⟨0, by decide, by norm_num, by decide⟩
    · exact ⟨1, by decide, by norm_num, by decide⟩
    · exact ⟨2, by decide, by norm_num, by decide⟩
    · exact ⟨3, by decide, by norm_num, by decide⟩
  · intro c hc
    interval_cases c <;> decide
  · intro l h1 h2 h3 h4
    have hcode : rf_level_to_code l = none := by
      unfold rf_level_to_code
      simp [h1, h2, h3, h4]
    exact ⟨hcode, fun reg4 => by unfold set_rf_level_model; rw [hcode]⟩

/-- Witness for C8: level -4 maps to code 0 and back; code 2 round-trips;
the invalid level 3 dBm is rejected with no register write. -/
theorem c8_rf_level_mapping_witness :
    ((-4 : ℤ) = -4 ∨ (-4 : ℤ) = -1 ∨ (-4 : ℤ) = 2 ∨ (-4 : ℤ) = 5) ∧
    (∃ c, rf_level_to_code (-4) = some c ∧ c < 4 ∧ code_to_rf_level c = -4) ∧
    rf_level_to_code (code_to_rf_level 2) = some 2 ∧
    (rf_level_to_code 3 = none ∧ ∀ reg4 : ℕ, set_rf_level_model reg4 3 = none) :=
  ⟨Or.inl rfl,
    c8_rf_level_mapping.1 (-4) (Or.inl rfl),
    c8_rf_level_mapping.2.1 2 (by decide),
    c8_rf_level_mapping.2.2 3 (by decide) (by decide) (by decide) (by decide)⟩

/-- Claim C9: `set_options` writes the two-bit pattern 0b11 into the
low-spur field of register 2 when `low_spur` is true and 0b00 when false,
and reading the options back from the written word recovers the same
boolean. -/
theorem c9_low_spur_encoding :
    ∀ (reg2 : ℕ) (opts : SynthOptions),
      ((set_options_reg2 reg2 opts >>> 29) &&& 0x03) =
        (if opts.low_spur then 3 else 0) ∧
      (get_options_of_reg2 (set_options_reg2 reg2 opts)).low_spur =
        opts.low_spur := by
  intro reg2 opts
  have hb29 := set_options_reg2_bit29 reg2 opts
  have hb30 := set_options_reg2_bit30 reg2 opts
  constructor
  · apply Nat.eq_of_testBit_eq
    intro j
    rw [Nat.testBit_and, Nat.testBit_shiftRight]
    match j with
    | 0 =>
      rw [hb29]
      cases h : opts.low_spur <;> simp [h]
    | 1 =>
      rw [hb30]
      cases h : opts.low_spur <;> simp [h]
    | j + 2 =>
      have h3 : Nat.testBit 0x03 (j + 2) = false := by
        apply Nat.testBit_lt_two_pow
        calc (0x03 : ℕ) < 2 ^ 2 := by norm_num
        _ ≤ 2 ^ (j + 2) := Nat.pow_le_pow_right (by norm_num) (by omega)
      rw [h3]
      cases h : opts.low_spur <;> simp [h, h3]
  · unfold get_options_of_reg2
    simp only [bit_extract_eq, hb29, hb30]
    cases h : opts.low_spur <;> simp [h]

/-- Claim C10: decoding the frequency registers always yields a dbf in
{1,2,4,8,16}: the divider-select codes 0-4 decode to 1,2,4,8,16 and the
out-of-range codes 5, 6, 7 decode to 1, so `get_frequency` never divides by
zero or by an unspecified divider. -/
theorem c10_divider_select_total :
    ∀ (bytes : List ℕ),
      ((unpack_freq_registers bytes).dbf = 1 ∨
        (unpack_freq_registers bytes).dbf = 2 ∨
        (unpack_freq_registers bytes).dbf = 4 ∨
        (unpack_freq_registers bytes).dbf = 8 ∨
        (unpack_freq_registers bytes).dbf = 16) ∧
      (unpack_freq_registers bytes).dbf ≠ 0 ∧
      decode_divider_select 0 = 1 ∧ decode_divider_select 1 = 2 ∧
      decode_divider_select 2 = 4 ∧ decode_divider_select 3 = 8 ∧
      decode_divider_select 4 = 16 ∧ decode_divider_select 5 = 1 ∧
      decode_divider_select 6 = 1 ∧ decode_divider_select 7 = 1 := by
  intro bytes
  have hmem : ∀ code : ℕ, decode_divider_select code = 1 ∨
      decode_divider_select code = 2 ∨ decode_divider_select code = 4 ∨
      decode_divider_select code = 8 ∨ decode_divider_select code = 16 := by
    intro code
    unfold decode_divider_select
    split_ifs <;> norm_num
  have hne : ∀ code : ℕ, decode_divider_select code ≠ 0 := by
    intro code
    rcases hmem code with h | h | h | h | h <;> omega
  exact ⟨hmem _, hne _, by decide, by decide, by decide, by decide, by decide,
    by decide, by decide, by decide⟩
